import Mathlib

/-!
# Feed controller (`server/controllers/feed.js`) and error middleware (`server/app.js`)

A shallow embedding of the five request handlers of the feed controller
(`getPosts`, `createPost`, `getPost`, `updatePost`, `deletePost`), of the helper
`clearImage`, and of the error middleware registered in `app.js`.

Modelling decisions.

* The MongoDB collections behind the Mongoose models `Post` and `User` are lists
  of documents (`Db`).  A query either fails (the fault table `Env.fault`, one
  entry per kind of store call) or acts on the lists.
* Every handler returns an `Outcome` (response sent, `next(err)` called, or the
  promise of the `async` function rejected because of a `throw` outside
  `try`/`catch`), the store afterwards and the ordered list of `Effect`s it
  performed: store calls, `clearImage` calls and socket.io `emit`s.
* ObjectIds are natural numbers; `req.userId`, `req.params.postId` are ObjectIds.
-/

namespace Feed

/-- ObjectId of a document. -/
abbrev Id := Nat

/-- A JavaScript `Error` object with the two extra properties the code reads:
`statusCode` and `data` (`none` is `undefined`). -/
structure Err where
  message : String
  statusCode : Option Nat
  data : Option (List String)
  deriving DecidableEq, Repr

/-- Modelled from the spec: the schema `models/user.js` (section 3: name and the
ordered collection of Post references; credential material left out). -/
structure User where
  _id : Id
  name : String
  posts : List Id
  deriving DecidableEq, Repr

/-- Modelled from the spec: the schema `models/post.js` (section 3: title,
content, imageUrl, creator reference, server-assigned timestamps).  This is the
stored document: `creator` is an ObjectId. -/
structure Post where
  _id : Id
  title : String
  content : String
  imageUrl : String
  creator : Id
  createdAt : Nat
  updatedAt : Nat
  deriving DecidableEq, Repr

/-- The `creator` field of a post as it is serialised: the bare ObjectId (not
populated), the result of `.populate('creator')` (the User document, or `null`
when no user has that id), or the literal `{ _id, name }` built by `createPost`. -/
inductive CreatorField where
  | id (i : Id)
  | populated (u : Option User)
  | brief (i : Id) (name : String)
  deriving DecidableEq, Repr

/-- A post document as it leaves the controller (response body, event payload). -/
structure PostDoc where
  _id : Id
  title : String
  content : String
  imageUrl : String
  creator : CreatorField
  createdAt : Nat
  updatedAt : Nat
  deriving DecidableEq, Repr

/-- Payload `post` of a `'posts'` event: a post document, or only an id. -/
inductive Payload where
  | doc (p : PostDoc)
  | id (i : Id)
  deriving DecidableEq, Repr

/-- The object passed to `io.getIO().emit('posts', ...)`. -/
structure Event where
  action : String
  post : Payload
  deriving DecidableEq, Repr

/-- The kinds of store call the controller makes. -/
inductive StoreCall where
  | postCount
  | postFind
  | postFindById
  | postSave
  | postRemove
  | userFindById
  | userSave
  deriving DecidableEq, Repr

/-- What a handler does to the outside world, in order. -/
inductive Effect where
  | store (call : StoreCall) (ok : Bool)
  | unlink (filePath : String)
  | emit (channel : String) (ev : Event)
  deriving DecidableEq, Repr

/-- JSON bodies sent by the controller and by the error middleware. -/
inductive Body where
  | posts (message : String) (posts : List PostDoc) (totalItems : Nat)
  | created (message : String) (post : PostDoc) (creatorId : Id) (creatorName : String)
  | post (message : String) (post : PostDoc)
  | message (message : String)
  | error (message : String) (data : Option (List String))
  deriving DecidableEq, Repr

/-- The call `res.status(s).json(b)`. -/
structure Response where
  status : Nat
  body : Body
  deriving DecidableEq, Repr

/-- How a handler ends. -/
inductive Outcome where
  | responded (r : Response)
  | next (e : Err)
  | rejected (e : Err)
  deriving DecidableEq, Repr

/-- The two collections. -/
structure Db where
  posts : List Post
  users : List User
  deriving DecidableEq, Repr

/-- What the handler cannot control: which store calls fail (and with which
error), the ObjectId generated by `new Post(...)`, and the clock. -/
structure Env where
  fault : StoreCall → Option Err
  newId : Id
  now : Nat

/-- The parts of the Express request the controller reads: `req.userId` (set by
the authentication middleware), `req.params.postId`, `req.query.page` (its
numeric value, `none` when absent), `req.body.title`, `req.body.content`,
`req.body.image`, `req.file.path` (`none` when multer stored no file) and the
list of field errors that `validationResult(req)` reports. -/
structure Req where
  userId : Id
  postId : Id
  page : Option Int
  title : String
  content : String
  image : Option String
  file : Option String
  validationErrors : List String
  deriving DecidableEq, Repr

/-- Result of running a handler. -/
structure Result where
  outcome : Outcome
  db : Db
  effects : List Effect
  deriving DecidableEq, Repr

/-! ## Store primitives -/

/-- The query `Model.findById(id)` on a collection with key `key`. -/
def findById {α : Type} (key : α → Id) (l : List α) (i : Id) : Option α :=
  l.find? (fun d => decide (key d = i))

/-- The update issued by `doc.save()` on an existing document: the first document
with the same key is replaced. -/
def replaceFirst {α : Type} (key : α → Id) : List α → α → List α
  | [], _ => []
  | x :: xs, d => if key x = key d then d :: xs else x :: replaceFirst key xs d

/-- The deletion issued by `Model.findByIdAndRemove(id)`: the first document with
that key is removed. -/
def removeFirst {α : Type} (key : α → Id) : List α → Id → List α
  | [], _ => []
  | x :: xs, i => if key x = i then xs else x :: removeFirst key xs i

/-- Insertion into the list ordered by `createdAt` descending. -/
def insertDesc (p : Post) : List Post → List Post
  | [] => [p]
  | q :: qs => if q.createdAt ≤ p.createdAt then p :: q :: qs else q :: insertDesc p qs

/-- The cursor modifier `.sort({ createdAt: -1 })`. -/
def sortDesc : List Post → List Post
  | [] => []
  | p :: ps => insertDesc p (sortDesc ps)

/-- Serialisation of a stored post (creator not populated). -/
def Post.toDoc (p : Post) : PostDoc :=
  { _id := p._id, title := p.title, content := p.content, imageUrl := p.imageUrl,
    creator := CreatorField.id p.creator, createdAt := p.createdAt, updatedAt := p.updatedAt }

/-- The query modifier `.populate('creator')`: the creator id is replaced by the
User document with that id, or by `null`. -/
def populate (users : List User) (p : Post) : PostDoc :=
  { p.toDoc with creator := CreatorField.populated (findById User._id users p.creator) }

/-- The document held by `updatePost` after the three assignments
`post.title = title; post.imageUrl = imageUrl; post.content = content` and
`post.save()`: the timestamp `updatedAt` is refreshed when a field changed. -/
def Post.edited (post : Post) (title imageUrl content : String) (now : Nat) : Post :=
  if title = post.title ∧ imageUrl = post.imageUrl ∧ content = post.content then post
  else { post with title := title, imageUrl := imageUrl, content := content, updatedAt := now }

/-- Serialisation of a post whose `creator` was populated with `creator`. -/
def Post.toDocWith (p : Post) (creator : Option User) : PostDoc :=
  { p.toDoc with creator := CreatorField.populated creator }

/-- JavaScript truthiness of `err.statusCode`. -/
def truthyStatus : Option Nat → Bool
  | some (_ + 1) => true
  | _ => false

/-- The `catch` block shared by all handlers:
`if (!err.statusCode) err.statusCode = 500; next(err)`. -/
def catchNext (e : Err) : Outcome :=
  Outcome.next (if truthyStatus e.statusCode then e else { e with statusCode := some 500 })

/-- The error middleware of `app.js`:
`status = error.statusCode || 500`, body `{ message, data }`. -/
def errorMiddleware (e : Err) : Response :=
  { status := if truthyStatus e.statusCode then e.statusCode.getD 500 else 500,
    body := Body.error e.message e.data }

/-- The helper `clearImage(filePath)`: one `fs.unlink` request, whose failure is
only logged.  The effect records the argument `filePath`; the file unlinked is
`path.join(__dirname, '..', filePath)`. -/
def clearImage (filePath : String) : List Effect :=
  [Effect.unlink filePath]

/-- Modelled from the spec: the module `socket.js` behind `io.getIO()` (section
4.4: a process-wide channel, set up once at startup before requests are served;
publishing is fire-and-forget).  The call `io.getIO().emit(channel, ev)` is one
`emit` effect and does not fail. -/
def ioEmit (channel : String) (ev : Event) : List Effect :=
  [Effect.emit channel ev]

/-- The `TypeError` raised by reading a property of `null` (message abridged). -/
def typeError (prop : String) : Err :=
  { message := "Cannot read property " ++ prop ++ " of null", statusCode := none, data := none }

/-- The error built by `new Error(message)` followed by `error.statusCode = code`. -/
def httpError (message : String) (code : Nat) : Err :=
  { message := message, statusCode := some code, data := none }

/-- The error with which the store rejects `.skip(n)` for a negative `n`. -/
def skipError : Err :=
  { message := "Skip value must be non-negative", statusCode := none, data := none }

/-- The error with which the store rejects the insertion of a second document
with an `_id` already present (unique index on `_id`). -/
def duplicateKeyError : Err :=
  { message := "E11000 duplicate key error", statusCode := none, data := none }

/-! ## The handlers -/

/-- Handler `exports.getPosts`.  `req.page` is the numeric value of the query
parameter `page`, `none` when it is absent (then `|| 1` applies). -/
def getPosts (env : Env) (req : Req) (db : Db) : Result :=
  let currentPage : Int := req.page.getD 1
  let perPage : Int := 2
  match env.fault StoreCall.postCount with
  | some e => ⟨catchNext e, db, [Effect.store StoreCall.postCount false]⟩
  | none =>
    let totalItems := db.posts.length
    let skip : Int := (currentPage - 1) * perPage
    match env.fault StoreCall.postFind with
    | some e =>
      ⟨catchNext e, db,
        [Effect.store StoreCall.postCount true, Effect.store StoreCall.postFind false]⟩
    | none =>
      if skip < 0 then
        ⟨catchNext skipError, db,
          [Effect.store StoreCall.postCount true, Effect.store StoreCall.postFind false]⟩
      else
        let posts :=
          (((sortDesc db.posts).drop skip.toNat).take perPage.toNat).map (populate db.users)
        ⟨Outcome.responded ⟨200, Body.posts "Fetched posts successfully." posts totalItems⟩, db,
          [Effect.store StoreCall.postCount true, Effect.store StoreCall.postFind true]⟩

/-- Handler `exports.createPost`. -/
def createPost (env : Env) (req : Req) (db : Db) : Result :=
  if req.validationErrors ≠ [] then
    ⟨Outcome.rejected (httpError "Validation failed, entered data is incorrect." 422), db, []⟩
  else
    match req.file with
    | none => ⟨Outcome.rejected (httpError "No image provided." 422), db, []⟩
    | some imageUrl =>
      let post : Post :=
        { _id := env.newId, title := req.title, content := req.content, imageUrl := imageUrl,
          creator := req.userId, createdAt := env.now, updatedAt := env.now }
      -- try
      match env.fault StoreCall.postSave with
      | some e => ⟨catchNext e, db, [Effect.store StoreCall.postSave false]⟩
      | none =>
        if (findById Post._id db.posts post._id).isSome then
          ⟨catchNext duplicateKeyError, db, [Effect.store StoreCall.postSave false]⟩
        else
          let db1 : Db := { db with posts := db.posts ++ [post] }
          match env.fault StoreCall.userFindById with
          | some e =>
            ⟨catchNext e, db1,
              [Effect.store StoreCall.postSave true, Effect.store StoreCall.userFindById false]⟩
          | none =>
            match findById User._id db1.users req.userId with
            | none =>
              ⟨catchNext (typeError "posts"), db1,
                [Effect.store StoreCall.postSave true, Effect.store StoreCall.userFindById true]⟩
            | some user =>
              let user1 : User := { user with posts := user.posts ++ [post._id] }
              match env.fault StoreCall.userSave with
              | some e =>
                ⟨catchNext e, db1,
                  [Effect.store StoreCall.postSave true, Effect.store StoreCall.userFindById true,
                    Effect.store StoreCall.userSave false]⟩
              | none =>
                let db2 : Db := { db1 with users := replaceFirst User._id db1.users user1 }
                let ev : Event :=
                  { action := "create",
                    post := Payload.doc
                      { post.toDoc with creator := CreatorField.brief req.userId user1.name } }
                ⟨Outcome.responded
                    ⟨201, Body.created "Post created successfully" post.toDoc user1._id user1.name⟩,
                  db2,
                  [Effect.store StoreCall.postSave true, Effect.store StoreCall.userFindById true,
                    Effect.store StoreCall.userSave true] ++ ioEmit "posts" ev⟩

/-- Handler `exports.getPost`. -/
def getPost (env : Env) (req : Req) (db : Db) : Result :=
  match env.fault StoreCall.postFindById with
  | some e => ⟨catchNext e, db, [Effect.store StoreCall.postFindById false]⟩
  | none =>
    match findById Post._id db.posts req.postId with
    | none =>
      ⟨catchNext (httpError "Could not find post" 404), db,
        [Effect.store StoreCall.postFindById true]⟩
    | some post =>
      ⟨Outcome.responded ⟨200, Body.post "Post fetched" post.toDoc⟩, db,
        [Effect.store StoreCall.postFindById true]⟩

/-- The value of `imageUrl` in `updatePost` before the check `if (!imageUrl)`:
`req.body.image`, overridden by `req.file.path` when a file was uploaded. -/
def Req.imageUrl (req : Req) : Option String :=
  match req.file with
  | some path => some path
  | none => req.image

/-- JavaScript truthiness of an optional string: defined and not empty. -/
def truthyString : Option String → Bool
  | some s => s ≠ ""
  | none => false

/-- Handler `exports.updatePost`. -/
def updatePost (env : Env) (req : Req) (db : Db) : Result :=
  if req.validationErrors ≠ [] then
    ⟨Outcome.rejected (httpError "Validation failed, entered data is incorrect." 422), db, []⟩
  else if ¬ truthyString req.imageUrl then
    ⟨Outcome.rejected (httpError "No file picked." 422), db, []⟩
  else
    let imageUrl : String := req.imageUrl.getD ""
    -- try
    match env.fault StoreCall.postFindById with
    | some e => ⟨catchNext e, db, [Effect.store StoreCall.postFindById false]⟩
    | none =>
      match findById Post._id db.posts req.postId with
      | none =>
        ⟨catchNext (httpError "Could not find post" 404), db,
          [Effect.store StoreCall.postFindById true]⟩
      | some post =>
        match findById User._id db.users post.creator with
        | none =>
          ⟨catchNext (typeError "_id"), db, [Effect.store StoreCall.postFindById true]⟩
        | some creator =>
          if creator._id ≠ req.userId then
            ⟨catchNext (httpError "Not authorized" 403), db,
              [Effect.store StoreCall.postFindById true]⟩
          else
            let cleared : List Effect :=
              if imageUrl ≠ post.imageUrl then clearImage post.imageUrl else []
            match env.fault StoreCall.postSave with
            | some e =>
              ⟨catchNext e, db,
                [Effect.store StoreCall.postFindById true] ++ cleared ++
                  [Effect.store StoreCall.postSave false]⟩
            | none =>
              let saved : Post := post.edited req.title imageUrl req.content env.now
              let db1 : Db := { db with posts := replaceFirst Post._id db.posts saved }
              let result : PostDoc := saved.toDocWith (some creator)
              ⟨Outcome.responded ⟨200, Body.post "Post updated" result⟩, db1,
                [Effect.store StoreCall.postFindById true] ++ cleared ++
                  [Effect.store StoreCall.postSave true] ++
                  ioEmit "posts" { action := "update", post := Payload.doc result }⟩

/-- Handler `exports.deletePost`. -/
def deletePost (env : Env) (req : Req) (db : Db) : Result :=
  match env.fault StoreCall.postFindById with
  | some e => ⟨catchNext e, db, [Effect.store StoreCall.postFindById false]⟩
  | none =>
    match findById Post._id db.posts req.postId with
    | none =>
      ⟨catchNext (httpError "Could not find post" 404), db,
        [Effect.store StoreCall.postFindById true]⟩
    | some post =>
      if post.creator ≠ req.userId then
        ⟨catchNext (httpError "Not authorized" 403), db,
          [Effect.store StoreCall.postFindById true]⟩
      else
        let pre : List Effect := [Effect.store StoreCall.postFindById true] ++ clearImage post.imageUrl
        match env.fault StoreCall.postRemove with
        | some e => ⟨catchNext e, db, pre ++ [Effect.store StoreCall.postRemove false]⟩
        | none =>
          let db1 : Db := { db with posts := removeFirst Post._id db.posts req.postId }
          match env.fault StoreCall.userFindById with
          | some e =>
            ⟨catchNext e, db1,
              pre ++ [Effect.store StoreCall.postRemove true,
                Effect.store StoreCall.userFindById false]⟩
          | none =>
            match findById User._id db1.users req.userId with
            | none =>
              ⟨catchNext (typeError "posts"), db1,
                pre ++ [Effect.store StoreCall.postRemove true,
                  Effect.store StoreCall.userFindById true]⟩
            | some user =>
              let user1 : User := { user with posts := user.posts.filter (fun r => r ≠ req.postId) }
              match env.fault StoreCall.userSave with
              | some e =>
                ⟨catchNext e, db1,
                  pre ++ [Effect.store StoreCall.postRemove true,
                    Effect.store StoreCall.userFindById true,
                    Effect.store StoreCall.userSave false]⟩
              | none =>
                let db2 : Db := { db1 with users := replaceFirst User._id db1.users user1 }
                ⟨Outcome.responded ⟨200, Body.message "Deleted post."⟩, db2,
                  pre ++ [Effect.store StoreCall.postRemove true,
                    Effect.store StoreCall.userFindById true,
                    Effect.store StoreCall.userSave true] ++
                    ioEmit "posts" { action := "delete", post := Payload.id req.postId }⟩

/-! ## Observations on results -/

/-- The file paths for which a deletion was requested, in order. -/
def unlinks : List Effect → List String
  | [] => []
  | Effect.unlink f :: fx => f :: unlinks fx
  | _ :: fx => unlinks fx

/-- The events emitted, with their channel, in order. -/
def emits : List Effect → List (String × Event)
  | [] => []
  | Effect.emit c ev :: fx => (c, ev) :: emits fx
  | _ :: fx => emits fx

/-- The store calls made, with their success flag, in order. -/
def storeCalls : List Effect → List (StoreCall × Bool)
  | [] => []
  | Effect.store c ok :: fx => (c, ok) :: storeCalls fx
  | _ :: fx => storeCalls fx

/-- The error with which a handler failed, whether passed to `next` or thrown
out of the `async` function. -/
def Outcome.raised : Outcome → Option Err
  | Outcome.responded _ => none
  | Outcome.next e => some e
  | Outcome.rejected e => some e

/-- The handler sent its own response (every such response is a 2xx). -/
def Outcome.isSuccess : Outcome → Bool
  | Outcome.responded _ => true
  | _ => false

/-- The response the client gets once the error middleware of `app.js` has run on
an error passed to `next`; `none` when the promise was rejected instead. -/
def Outcome.response : Outcome → Option Response
  | Outcome.responded r => some r
  | Outcome.next e => some (errorMiddleware e)
  | Outcome.rejected _ => none

/-- The document store's guarantee: `_id` is unique within a collection. -/
def Db.uniqueIds (db : Db) : Prop :=
  (db.posts.map Post._id).Nodup ∧ (db.users.map User._id).Nodup

/-- The bidirectional ownership invariant of section 3: every reference held by
a user names an existing post created by that user, and every post is referenced
by the user that is its creator. -/
def Db.ownership (db : Db) : Prop :=
  (∀ u ∈ db.users, ∀ r ∈ u.posts, ∃ p ∈ db.posts, p._id = r ∧ p.creator = u._id) ∧
  (∀ p ∈ db.posts, ∃ u ∈ db.users, u._id = p.creator ∧ p._id ∈ u.posts)

instance (db : Db) : Decidable db.uniqueIds := by
  unfold Db.uniqueIds; infer_instance

instance (db : Db) : Decidable db.ownership := by
  unfold Db.ownership; infer_instance

/-- The ordering contract between persistence and notification for one run `r`
of a mutating handler, where `fault` is the fault table of the run, `action` the
action of the handler and `writes` the persistence writes it has to commit:

* if a store call of the run failed, the run emitted no event and ended in
  `next(err)` for the error `err` of the store, the client receiving the status
  of `err` when it has one and 500 otherwise;
* if the run sent its own response, its last effect is the only `emit`, on the
  channel `posts` with the action of the handler, every store call before it
  succeeded and every write in `writes` is among them;
* if the run did not send its own response, it emitted no event. -/
def OrderingContract (action : String) (writes : List StoreCall)
    (fault : StoreCall → Option Err) (r : Result) : Prop :=
  (∀ c, (c, false) ∈ storeCalls r.effects →
    emits r.effects = [] ∧
    ∃ e, (fault c = some e ∨ e = duplicateKeyError) ∧
      r.outcome = catchNext e ∧
      r.outcome.response =
        some ⟨if truthyStatus e.statusCode then e.statusCode.getD 500 else 500,
          Body.error e.message e.data⟩) ∧
  (r.outcome.isSuccess = true →
    ∃ pre ev, r.effects = pre ++ [Effect.emit "posts" ev] ∧ ev.action = action ∧
      emits pre = [] ∧
      (∀ c ok, (c, ok) ∈ storeCalls pre → ok = true) ∧
      (∀ w ∈ writes, (w, true) ∈ storeCalls pre)) ∧
  (r.outcome.isSuccess = false → emits r.effects = [])

/-! ## Example data

The end-to-end scenario of the specification: user U1 created post P1 (title
"A", content "hello world", image `img1.png`); U2 is a second identity. -/

/-- An environment in which every store call succeeds. -/
def envOk : Env :=
  { fault := fun _ => none, newId := 11, now := 200 }

/-- An environment in which saving a user fails with an error without status. -/
def envUserSaveFails : Env :=
  { fault := fun c =>
      if c = StoreCall.userSave then
        some { message := "connection lost", statusCode := none, data := none }
      else none,
    newId := 11, now := 200 }

/-- User U1, owner of post 10. -/
def userU1 : User := { _id := 1, name := "U1", posts := [10] }

/-- User U2, owner of nothing. -/
def userU2 : User := { _id := 2, name := "U2", posts := [] }

/-- Post P1. -/
def postP1 : Post :=
  { _id := 10, title := "A", content := "hello world", imageUrl := "images/img1.png",
    creator := 1, createdAt := 100, updatedAt := 100 }

/-- The store after U1 created P1. -/
def dbP1 : Db := { posts := [postP1], users := [userU1, userU2] }

/-- A store whose only post names a creator that has no User document. -/
def dbDangling : Db := { posts := [postP1], users := [userU2] }

/-- The request `GET /feed/post/10` (and `DELETE /feed/post/10`) sent by `userId`. -/
def reqPost (userId : Id) : Req :=
  { userId := userId, postId := 10, page := none, title := "", content := "",
    image := none, file := none, validationErrors := [] }

/-- The request `PUT /feed/post/10` sent by `userId`, which passes validation. -/
def reqUpdate (userId : Id) (image file : Option String) : Req :=
  { userId := userId, postId := 10, page := none, title := "B", content := "hello again",
    image := image, file := file, validationErrors := [] }

/-- The request `PUT /feed/post/10` sent by `userId`, with an empty title. -/
def reqUpdateInvalid (userId : Id) : Req :=
  { userId := userId, postId := 10, page := none, title := "", content := "hello again",
    image := some "images/img1.png", file := none, validationErrors := ["title"] }

/-- The request `POST /feed/post` sent by U1. -/
def reqCreate (file : Option String) (validationErrors : List String) : Req :=
  { userId := 1, postId := 0, page := none, title := "C", content := "third post",
    image := none, file := file, validationErrors := validationErrors }

/-- The request `GET /feed/posts?page=n`. -/
def reqPage (n : Int) : Req :=
  { userId := 1, postId := 0, page := some n, title := "", content := "",
    image := none, file := none, validationErrors := [] }

/-- A post of U1 with id `i` created at time `t`. -/
def postAt (i : Id) (t : Nat) : Post :=
  { _id := i, title := "T", content := "some content", imageUrl := "images/x.png",
    creator := 1, createdAt := t, updatedAt := t }

/-- Five posts created at times 1 < 2 < 3 < 4 < 5, in insertion order. -/
def dbFive : Db :=
  { posts := [postAt 21 1, postAt 22 2, postAt 23 3, postAt 24 4, postAt 25 5],
    users := [{ _id := 1, name := "U1", posts := [21, 22, 23, 24, 25] }] }

/-! ## Lemmas on the store primitives -/

theorem findById_some {α : Type} {key : α → Id} {l : List α} {i : Id} {d : α}
    (h : findById key l i = some d) : d ∈ l ∧ key d = i := by
  unfold findById at h
  exact ⟨List.mem_of_find?_eq_some h, by simpa using List.find?_some h⟩

theorem findById_none {α : Type} {key : α → Id} {l : List α} {i : Id}
    (h : findById key l i = none) : ∀ d ∈ l, key d ≠ i := by
  unfold findById at h
  intro d hd
  simpa using List.find?_eq_none.1 h d hd

theorem findById_of_mem {α : Type} {key : α → Id} {l : List α} {d : α}
    (hn : (l.map key).Nodup) (hd : d ∈ l) : findById key l (key d) = some d := by
  induction l with
  | nil => cases hd
  | cons x xs ih =>
    rw [List.map_cons, List.nodup_cons] at hn
    by_cases hx : key x = key d
    · rcases List.mem_cons.1 hd with rfl | hd
      · simp [findById]
      · exact absurd (hx ▸ List.mem_map_of_mem key hd) hn.1
    · rcases List.mem_cons.1 hd with rfl | hd
      · exact absurd rfl hx
      · have := ih hn.2 hd
        simpa [findById, hx] using this

theorem map_key_replaceFirst {α : Type} (key : α → Id) (l : List α) (d : α) :
    (replaceFirst key l d).map key = l.map key := by
  induction l with
  | nil => rfl
  | cons x xs ih =>
    unfold replaceFirst
    split
    · rename_i h; simp [h]
    · simp [ih]

theorem findById_replaceFirst_self {α : Type} {key : α → Id} {l : List α} {d x : α}
    (h : findById key l (key d) = some x) :
    findById key (replaceFirst key l d) (key d) = some d := by
  induction l with
  | nil => simp [findById] at h
  | cons y ys ih =>
    unfold replaceFirst
    by_cases hy : key y = key d
    · simp [hy, findById]
    · have h2 : findById key ys (key d) = some x := by simpa [findById, hy] using h
      simpa [hy, findById] using ih h2

theorem findById_replaceFirst_other {α : Type} (key : α → Id) (l : List α) (d : α) (i : Id)
    (hi : i ≠ key d) :
    findById key (replaceFirst key l d) i = findById key l i := by
  induction l with
  | nil => rfl
  | cons y ys ih =>
    unfold replaceFirst
    by_cases hy : key y = key d
    · have h1 : ¬ key y = i := fun h => hi (h ▸ hy)
      have h2 : ¬ key d = i := fun h => hi h.symm
      simp [hy, findById, h2]
    · by_cases hyi : key y = i
      · rw [if_neg hy]; simp [findById, hyi]
      · rw [if_neg hy]; simpa [findById, hyi] using ih

theorem mem_replaceFirst {α : Type} (key : α → Id) {l : List α} {d x : α}
    (hn : (l.map key).Nodup) (hx : x ∈ l) (hk : key x = key d) (y : α) :
    y ∈ replaceFirst key l d ↔ y = d ∨ (y ∈ l ∧ key y ≠ key d) := by
  induction l with
  | nil => cases hx
  | cons z zs ih =>
    rw [List.map_cons, List.nodup_cons] at hn
    unfold replaceFirst
    by_cases hz : key z = key d
    · have hzs : ∀ w ∈ zs, key w ≠ key d := by
        intro w hw hwd
        exact hn.1 (by rw [hz, ← hwd]; exact List.mem_map_of_mem key hw)
      simp only [hz, if_true, List.mem_cons]
      constructor
      · rintro (h | h)
        · exact Or.inl h
        · exact Or.inr ⟨Or.inr h, hzs y h⟩
      · rintro (h | ⟨h | h, hne⟩)
        · exact Or.inl h
        · exact absurd (h ▸ hz) hne
        · exact Or.inr h
    · have hxz : x ∈ zs := by
        rcases List.mem_cons.1 hx with rfl | h
        · exact absurd hk hz
        · exact h
      simp only [hz, if_false, List.mem_cons, ih hn.2 hxz]
      constructor
      · rintro (h | h | ⟨h, hne⟩)
        · exact Or.inr ⟨Or.inl h, h ▸ hz⟩
        · exact Or.inl h
        · exact Or.inr ⟨Or.inr h, hne⟩
      · rintro (h | ⟨h | h, hne⟩)
        · exact Or.inr (Or.inl h)
        · exact Or.inl h
        · exact Or.inr (Or.inr ⟨h, hne⟩)

theorem removeFirst_eq_filter {α : Type} (key : α → Id) (l : List α) (i : Id)
    (hn : (l.map key).Nodup) :
    removeFirst key l i = l.filter (fun d => decide (key d ≠ i)) := by
  induction l with
  | nil => rfl
  | cons z zs ih =>
    rw [List.map_cons, List.nodup_cons] at hn
    unfold removeFirst
    by_cases hz : key z = i
    · have hzs : ∀ w ∈ zs, key w ≠ i := by
        intro w hw hwd
        exact hn.1 (by rw [hz, ← hwd]; exact List.mem_map_of_mem key hw)
      rw [if_pos hz, List.filter_cons_of_neg (by simp [hz])]
      exact (List.filter_eq_self.2 (by intro w hw; simpa using hzs w hw)).symm
    · rw [if_neg hz, List.filter_cons_of_pos (by simpa using hz), ih hn.2]

/-! ## Lemmas on sorting and paging -/

theorem insertDesc_perm (p : Post) (l : List Post) : (insertDesc p l).Perm (p :: l) := by
  induction l with
  | nil => simp [insertDesc]
  | cons q qs ih =>
    unfold insertDesc
    split
    · exact List.Perm.refl _
    · exact (List.Perm.cons q ih).trans (List.Perm.swap p q qs)

theorem sortDesc_perm (l : List Post) : (sortDesc l).Perm l := by
  induction l with
  | nil => simp [sortDesc]
  | cons p ps ih =>
    unfold sortDesc
    exact (insertDesc_perm p _).trans (List.Perm.cons p ih)

theorem insertDesc_pairwise (p : Post) (l : List Post)
    (h : l.Pairwise (fun a b => b.createdAt ≤ a.createdAt)) :
    (insertDesc p l).Pairwise (fun a b => b.createdAt ≤ a.createdAt) := by
  induction l with
  | nil => simp [insertDesc]
  | cons q qs ih =>
    unfold insertDesc
    rw [List.pairwise_cons] at h
    split
    · rename_i hq
      refine List.Pairwise.cons ?_ (List.Pairwise.cons h.1 h.2)
      intro b hb
      rcases List.mem_cons.1 hb with rfl | hb
      · exact hq
      · exact le_trans (h.1 b hb) hq
    · rename_i hq
      refine List.Pairwise.cons ?_ (ih h.2)
      intro b hb
      rcases List.mem_cons.1 ((insertDesc_perm p qs).mem_iff.1 hb) with rfl | hb
      · omega
      · exact h.1 b hb

theorem sortDesc_pairwise (l : List Post) :
    (sortDesc l).Pairwise (fun a b => b.createdAt ≤ a.createdAt) := by
  induction l with
  | nil => simp [sortDesc]
  | cons p ps ih => exact insertDesc_pairwise p _ ih

theorem take_two_drop {α : Type} (l : List α) (k : Nat) :
    (l.drop k).take 2 = [l[k]?, l[k + 1]?].filterMap id := by
  have h0 : l[k]? = (l.drop k)[0]? := by simp
  have h1 : l[k + 1]? = (l.drop k)[1]? := by simp
  rw [h0, h1]
  rcases l.drop k with _ | ⟨a, _ | ⟨b, m⟩⟩ <;> simp

/-! ## Lemmas on `updatePost` -/

/-- The run of `updatePost` for a request by the creator that reaches the image
step, as a function of the outcome of the save. -/
theorem updatePost_by_creator (env : Env) (req : Req) (db : Db) (post : Post)
    (creator : User) (url : String)
    (hvalid : req.validationErrors = [])
    (hurl : req.imageUrl = some url) (hnonempty : url ≠ "")
    (hlookup : env.fault StoreCall.postFindById = none)
    (hpost : findById Post._id db.posts req.postId = some post)
    (hcreator : findById User._id db.users post.creator = some creator)
    (hcid : creator._id = req.userId) :
    updatePost env req db =
      match env.fault StoreCall.postSave with
      | some e =>
        ⟨catchNext e, db,
          [Effect.store StoreCall.postFindById true] ++
            (if url ≠ post.imageUrl then clearImage post.imageUrl else []) ++
            [Effect.store StoreCall.postSave false]⟩
      | none =>
        ⟨Outcome.responded ⟨200, Body.post "Post updated"
            ((post.edited req.title url req.content env.now).toDocWith (some creator))⟩,
          { db with
            posts :=
              (replaceFirst Post._id db.posts (post.edited req.title url req.content env.now)) },
          [Effect.store StoreCall.postFindById true] ++
            (if url ≠ post.imageUrl then clearImage post.imageUrl else []) ++
            [Effect.store StoreCall.postSave true] ++
            ioEmit "posts"
              { action := "update",
                post := Payload.doc
                  ((post.edited req.title url req.content env.now).toDocWith
                    (some creator)) }⟩ := by
  have htruthy : truthyString req.imageUrl = true := by simp [hurl, truthyString, hnonempty]
  unfold updatePost
  rw [if_neg (by simp [hvalid]), if_neg (by simp [htruthy])]
  simp only [hlookup, hpost, hcreator, hurl, Option.getD_some]
  rw [if_neg (by simp [hcid])]

theorem Post.edited_fields (post : Post) (title imageUrl content : String) (now : Nat) :
    (post.edited title imageUrl content now)._id = post._id ∧
    (post.edited title imageUrl content now).creator = post.creator ∧
    (post.edited title imageUrl content now).title = title ∧
    (post.edited title imageUrl content now).imageUrl = imageUrl ∧
    (post.edited title imageUrl content now).content = content ∧
    (post.edited title imageUrl content now).createdAt = post.createdAt := by
  unfold Post.edited
  split
  · rename_i h
    exact ⟨rfl, rfl, h.1.symm, h.2.1.symm, h.2.2.symm, rfl⟩
  · exact ⟨rfl, rfl, rfl, rfl, rfl, rfl⟩

/-! ## Successful runs of the mutating handlers -/

theorem catchNext_isSuccess (e : Err) : (catchNext e).isSuccess = false := rfl

/-- A successful `createPost` went through every step. -/
theorem createPost_success_inv (env : Env) (req : Req) (db : Db)
    (h : (createPost env req db).outcome.isSuccess = true) :
    ∃ path user,
      req.file = some path ∧
      findById Post._id db.posts env.newId = none ∧
      findById User._id db.users req.userId = some user ∧
      (createPost env req db).db =
        { posts := db.posts ++
            [{ _id := env.newId, title := req.title, content := req.content, imageUrl := path,
               creator := req.userId, createdAt := env.now, updatedAt := env.now }],
          users := replaceFirst User._id db.users
            { user with posts := user.posts ++ [env.newId] } } := by
  unfold createPost at h ⊢
  by_cases hv : req.validationErrors = []
  swap
  · simp [hv, Outcome.isSuccess] at h
  cases hf : req.file with
  | none => simp [hv, hf, Outcome.isSuccess] at h
  | some path =>
    cases h1 : env.fault StoreCall.postSave with
    | some e => simp [hv, hf, h1, catchNext_isSuccess] at h
    | none =>
      cases h2 : findById Post._id db.posts env.newId with
      | some p => simp [hv, hf, h1, h2, catchNext_isSuccess] at h
      | none =>
        cases h3 : env.fault StoreCall.userFindById with
        | some e => simp [hv, hf, h1, h2, h3, catchNext_isSuccess] at h
        | none =>
          cases h4 : findById User._id db.users req.userId with
          | none => simp [hv, hf, h1, h2, h3, h4, catchNext_isSuccess] at h
          | some user =>
            cases h5 : env.fault StoreCall.userSave with
            | some e => simp [hv, hf, h1, h2, h3, h4, h5, catchNext_isSuccess] at h
            | none =>
              refine ⟨path, user, rfl, rfl, rfl, ?_⟩
              simp [hv, h1, h2, h3, h4, h5]

/-- A successful `updatePost` went through every step. -/
theorem updatePost_success_inv (env : Env) (req : Req) (db : Db)
    (h : (updatePost env req db).outcome.isSuccess = true) :
    ∃ post creator url,
      findById Post._id db.posts req.postId = some post ∧
      findById User._id db.users post.creator = some creator ∧
      post.creator = req.userId ∧
      (updatePost env req db).db =
        { posts := replaceFirst Post._id db.posts (post.edited req.title url req.content env.now),
          users := db.users } := by
  unfold updatePost at h ⊢
  by_cases hv : req.validationErrors = []
  swap
  · simp [hv, Outcome.isSuccess] at h
  by_cases hi : truthyString req.imageUrl = true
  swap
  · simp [hv, hi, Outcome.isSuccess] at h
  cases h1 : env.fault StoreCall.postFindById with
  | some e => simp [hv, hi, h1, catchNext_isSuccess] at h
  | none =>
    cases h2 : findById Post._id db.posts req.postId with
    | none => simp [hv, hi, h1, h2, catchNext_isSuccess] at h
    | some post =>
      cases h3 : findById User._id db.users post.creator with
      | none => simp [hv, hi, h1, h2, h3, catchNext_isSuccess] at h
      | some creator =>
        by_cases h4 : creator._id = req.userId
        swap
        · simp [hv, hi, h1, h2, h3, h4, catchNext_isSuccess] at h
        cases h5 : env.fault StoreCall.postSave with
        | some e => simp [hv, hi, h1, h2, h3, h4, h5, catchNext_isSuccess] at h
        | none =>
          refine ⟨post, creator, req.imageUrl.getD "", rfl, h3,
            (findById_some h3).2.symm.trans h4, ?_⟩
          simp [hv, hi, h1, h3, h4, h5]

/-- A successful `deletePost` went through every step. -/
theorem deletePost_success_inv (env : Env) (req : Req) (db : Db)
    (h : (deletePost env req db).outcome.isSuccess = true) :
    ∃ post user,
      findById Post._id db.posts req.postId = some post ∧
      post.creator = req.userId ∧
      findById User._id db.users req.userId = some user ∧
      (deletePost env req db).db =
        { posts := removeFirst Post._id db.posts req.postId,
          users := replaceFirst User._id db.users
            { user with posts := user.posts.filter (fun r => r ≠ req.postId) } } := by
  unfold deletePost at h ⊢
  cases h1 : env.fault StoreCall.postFindById with
  | some e => simp [h1, catchNext_isSuccess] at h
  | none =>
    cases h2 : findById Post._id db.posts req.postId with
    | none => simp [h1, h2, catchNext_isSuccess] at h
    | some post =>
      by_cases h3 : post.creator = req.userId
      swap
      · simp [h1, h2, h3, catchNext_isSuccess] at h
      cases h4 : env.fault StoreCall.postRemove with
      | some e => simp [h1, h2, h3, h4, catchNext_isSuccess] at h
      | none =>
        cases h5 : env.fault StoreCall.userFindById with
        | some e => simp [h1, h2, h3, h4, h5, catchNext_isSuccess] at h
        | none =>
          cases h6 : findById User._id db.users req.userId with
          | none => simp [h1, h2, h3, h4, h5, h6, catchNext_isSuccess] at h
          | some user =>
            cases h7 : env.fault StoreCall.userSave with
            | some e => simp [h1, h2, h3, h4, h5, h6, h7, catchNext_isSuccess] at h
            | none =>
              refine ⟨post, user, rfl, h3, rfl, ?_⟩
              simp [h3, h4, h5, h6, h7]

/-! ## Preservation of the ownership invariant by the three store updates -/

theorem mem_removeFirst {α : Type} (key : α → Id) {l : List α} {i : Id}
    (hn : (l.map key).Nodup) (y : α) :
    y ∈ removeFirst key l i ↔ y ∈ l ∧ key y ≠ i := by
  rw [removeFirst_eq_filter key l i hn]
  simp

theorem nodup_removeFirst {α : Type} {key : α → Id} {l : List α} (i : Id)
    (hn : (l.map key).Nodup) : ((removeFirst key l i).map key).Nodup := by
  rw [removeFirst_eq_filter key l i hn]
  exact hn.sublist ((List.filter_sublist l).map key)

theorem eq_of_key_eq {α : Type} {key : α → Id} {l : List α} {a b : α}
    (hn : (l.map key).Nodup) (ha : a ∈ l) (hb : b ∈ l) (h : key a = key b) : a = b := by
  have h1 := findById_of_mem hn ha
  have h2 := findById_of_mem hn hb
  rw [h] at h1
  exact Option.some.inj (h1.symm.trans h2)

/-- Inserting a post with a fresh id and appending its id to the references of
its creator keeps the invariant. -/
theorem ownership_insert (db : Db) (post : Post) (user : User)
    (huniq : db.uniqueIds) (hinv : db.ownership)
    (hfresh : findById Post._id db.posts post._id = none)
    (huser : findById User._id db.users post.creator = some user) :
    Db.ownership
      { posts := db.posts ++ [post],
        users := replaceFirst User._id db.users { user with posts := user.posts ++ [post._id] } } ∧
    Db.uniqueIds
      { posts := db.posts ++ [post],
        users := replaceFirst User._id db.users { user with posts := user.posts ++ [post._id] } } := by
  obtain ⟨hmem, hid⟩ := findById_some huser
  have hrep := mem_replaceFirst User._id (d := { user with posts := user.posts ++ [post._id] })
    huniq.2 hmem rfl
  refine ⟨⟨?_, ?_⟩, ⟨?_, ?_⟩⟩
  · intro u hu r hr
    rcases (hrep u).1 hu with rfl | ⟨hu, hne⟩
    · rcases List.mem_append.1 hr with hr | hr
      · obtain ⟨p, hp, h1, h2⟩ := hinv.1 user hmem r hr
        exact ⟨p, List.mem_append_left _ hp, h1, h2⟩
      · refine ⟨post, by simp, (List.mem_singleton.1 hr).symm, hid.symm⟩
    · obtain ⟨p, hp, h1, h2⟩ := hinv.1 u hu r hr
      exact ⟨p, List.mem_append_left _ hp, h1, h2⟩
  · intro p hp
    rcases List.mem_append.1 hp with hp | hp
    · obtain ⟨u, hu, h1, h2⟩ := hinv.2 p hp
      by_cases hk : u._id = user._id
      · have : u = user := eq_of_key_eq huniq.2 hu hmem hk
        subst this
        exact ⟨_, (hrep _).2 (Or.inl rfl), h1, List.mem_append_left _ h2⟩
      · exact ⟨u, (hrep u).2 (Or.inr ⟨hu, hk⟩), h1, h2⟩
    · rw [List.mem_singleton.1 hp]
      exact ⟨_, (hrep _).2 (Or.inl rfl), hid, by simp⟩
  · show ((db.posts ++ [post]).map Post._id).Nodup
    rw [List.map_append, List.nodup_append]
    refine ⟨huniq.1, by simp, ?_⟩
    intro a ha hb
    simp only [List.map_cons, List.map_nil, List.mem_singleton] at hb
    obtain ⟨q, hq, hqa⟩ := List.mem_map.1 ha
    exact findById_none hfresh q hq (hqa.trans hb)
  · show ((replaceFirst User._id db.users _).map User._id).Nodup
    rw [map_key_replaceFirst]
    exact huniq.2

/-- Replacing a post by one with the same id and creator keeps the invariant. -/
theorem ownership_replace (db : Db) (post saved : Post)
    (huniq : db.uniqueIds) (hinv : db.ownership)
    (hpost : findById Post._id db.posts post._id = some post)
    (hid : saved._id = post._id) (hcreator : saved.creator = post.creator) :
    Db.ownership { posts := replaceFirst Post._id db.posts saved, users := db.users } ∧
    Db.uniqueIds { posts := replaceFirst Post._id db.posts saved, users := db.users } := by
  obtain ⟨hmem, -⟩ := findById_some hpost
  have hrep := mem_replaceFirst Post._id (d := saved) huniq.1 hmem hid.symm
  refine ⟨⟨?_, ?_⟩, ⟨?_, huniq.2⟩⟩
  · intro u hu r hr
    obtain ⟨p, hp, h1, h2⟩ := hinv.1 u hu r hr
    by_cases hk : p._id = saved._id
    · have : p = post := eq_of_key_eq huniq.1 hp hmem (hk.trans hid)
      subst this
      exact ⟨saved, (hrep saved).2 (Or.inl rfl), hk.symm.trans h1, hcreator.trans h2⟩
    · exact ⟨p, (hrep p).2 (Or.inr ⟨hp, hk⟩), h1, h2⟩
  · intro p hp
    rcases (hrep p).1 hp with rfl | ⟨hp, -⟩
    · obtain ⟨u, hu, h1, h2⟩ := hinv.2 post hmem
      exact ⟨u, hu, h1.trans hcreator.symm, hid ▸ h2⟩
    · exact hinv.2 p hp
  · show ((replaceFirst Post._id db.posts saved).map Post._id).Nodup
    rw [map_key_replaceFirst]
    exact huniq.1

/-- Removing a post and pulling its id from the references of its creator keeps
the invariant. -/
theorem ownership_remove (db : Db) (post : Post) (user : User)
    (huniq : db.uniqueIds) (hinv : db.ownership)
    (hpost : findById Post._id db.posts post._id = some post)
    (huser : findById User._id db.users post.creator = some user) :
    Db.ownership
      { posts := removeFirst Post._id db.posts post._id,
        users := replaceFirst User._id db.users
          { user with posts := user.posts.filter (fun r => r ≠ post._id) } } ∧
    Db.uniqueIds
      { posts := removeFirst Post._id db.posts post._id,
        users := replaceFirst User._id db.users
          { user with posts := user.posts.filter (fun r => r ≠ post._id) } } := by
  obtain ⟨hmem, hid⟩ := findById_some huser
  obtain ⟨hpmem, -⟩ := findById_some hpost
  have hrep := mem_replaceFirst User._id
    (d := { user with posts := user.posts.filter (fun r => r ≠ post._id) }) huniq.2 hmem rfl
  have hrem := fun q => mem_removeFirst Post._id (i := post._id) huniq.1 q
  refine ⟨⟨?_, ?_⟩, ⟨nodup_removeFirst _ huniq.1, ?_⟩⟩
  · intro u hu r hr
    rcases (hrep u).1 hu with rfl | ⟨hu, hne⟩
    · have hr2 : r ∈ user.posts ∧ r ≠ post._id := by simpa using hr
      obtain ⟨p, hp, h1, h2⟩ := hinv.1 user hmem r hr2.1
      exact ⟨p, (hrem p).2 ⟨hp, h1 ▸ hr2.2⟩, h1, h2⟩
    · obtain ⟨p, hp, h1, h2⟩ := hinv.1 u hu r hr
      refine ⟨p, (hrem p).2 ⟨hp, ?_⟩, h1, h2⟩
      intro hk
      have : p = post := eq_of_key_eq huniq.1 hp hpmem hk
      subst this
      exact hne (h2.symm.trans hid.symm)
  · intro p hp
    obtain ⟨hp, hk⟩ := (hrem p).1 hp
    obtain ⟨u, hu, h1, h2⟩ := hinv.2 p hp
    by_cases hu2 : u._id = user._id
    · have : u = user := eq_of_key_eq huniq.2 hu hmem hu2
      subst this
      refine ⟨_, (hrep _).2 (Or.inl rfl), h1, ?_⟩
      simpa using ⟨h2, hk⟩
    · exact ⟨u, (hrep u).2 (Or.inr ⟨hu, hu2⟩), h1, h2⟩
  · show ((replaceFirst User._id db.users _).map User._id).Nodup
    rw [map_key_replaceFirst]
    exact huniq.2

/-! ## Lemmas on the ordering contract -/

theorem storeCalls_append (a b : List Effect) :
    storeCalls (a ++ b) = storeCalls a ++ storeCalls b := by
  induction a with
  | nil => rfl
  | cons x xs ih => cases x <;> simp [storeCalls, ih]

theorem emits_append (a b : List Effect) : emits (a ++ b) = emits a ++ emits b := by
  induction a with
  | nil => rfl
  | cons x xs ih => cases x <;> simp [emits, ih]

theorem catchNext_response (e : Err) :
    (catchNext e).response =
      some ⟨if truthyStatus e.statusCode then e.statusCode.getD 500 else 500,
        Body.error e.message e.data⟩ := by
  unfold catchNext
  by_cases h : truthyStatus e.statusCode = true
  · rw [if_pos h, if_pos h]
    simp only [Outcome.response, errorMiddleware, if_pos h]
  · rw [if_neg h, if_neg h]
    have h5 : truthyStatus (some 500) = true := rfl
    simp only [Outcome.response, errorMiddleware, if_pos h5, Option.getD_some]

/-- A run that ends in the `catch` block without having emitted. -/
theorem contract_of_caught (action : String) (writes : List StoreCall)
    (fault : StoreCall → Option Err) (e : Err) (db : Db) (fx : List Effect)
    (hemit : emits fx = [])
    (hfail : ∀ c, (c, false) ∈ storeCalls fx → fault c = some e ∨ e = duplicateKeyError) :
    OrderingContract action writes fault ⟨catchNext e, db, fx⟩ := by
  refine ⟨?_, ?_, ?_⟩
  · intro c hc
    exact ⟨hemit, e, hfail c hc, rfl, catchNext_response e⟩
  · intro h
    cases h
  · intro _
    exact hemit

/-- A run that throws before any effect. -/
theorem contract_of_rejected (action : String) (writes : List StoreCall)
    (fault : StoreCall → Option Err) (e : Err) (db : Db) :
    OrderingContract action writes fault ⟨Outcome.rejected e, db, []⟩ := by
  refine ⟨?_, ?_, ?_⟩
  · intro c hc
    simp [storeCalls] at hc
  · intro h
    cases h
  · intro _
    rfl

/-- A run that responds after a final emit. -/
theorem contract_of_responded (action : String) (writes : List StoreCall)
    (fault : StoreCall → Option Err) (r : Response) (db : Db) (pre : List Effect) (ev : Event)
    (haction : ev.action = action) (hemit : emits pre = [])
    (hok : ∀ c ok, (c, ok) ∈ storeCalls pre → ok = true)
    (hwrites : ∀ w ∈ writes, (w, true) ∈ storeCalls pre) :
    OrderingContract action writes fault
      ⟨Outcome.responded r, db, pre ++ [Effect.emit "posts" ev]⟩ := by
  refine ⟨?_, ?_, ?_⟩
  · intro c hc
    rw [storeCalls_append] at hc
    simp only [storeCalls, List.append_nil] at hc
    exact absurd (hok c false hc) (by decide)
  · intro _
    exact ⟨pre, ev, rfl, haction, hemit, hok, hwrites⟩
  · intro h
    cases h

/-! ## C1: mutation attempts by an identity that is not the creator -/

/-- C1, counterexample: U2 is not the creator of P1, yet `updatePost` does not
answer 403 (a) when the request fails validation: the 422 validation error is
thrown before the post is even looked up; (b) when the creator of the post has
no User document: reading `post.creator._id` on the populated `null` raises a
TypeError, which the `catch` block turns into a 500. -/
theorem updatePost_nonCreator_not_forbidden :
    findById Post._id dbP1.posts (reqUpdateInvalid 2).postId = some postP1 ∧
    postP1.creator ≠ (reqUpdateInvalid 2).userId ∧
    (updatePost envOk (reqUpdateInvalid 2) dbP1).outcome =
      Outcome.rejected (httpError "Validation failed, entered data is incorrect." 422) ∧
    (updatePost envOk (reqUpdateInvalid 2) dbP1).outcome.response ≠
      some ⟨403, Body.error "Not authorized" none⟩ ∧
    findById Post._id dbDangling.posts (reqUpdate 2 (some "images/img1.png") none).postId =
      some postP1 ∧
    ((updatePost envOk (reqUpdate 2 (some "images/img1.png") none) dbDangling).outcome.response).map
      Response.status = some 500 := by
  decide

/-- C1, amended: when the post lookup succeeds and finds a post whose creator is
not the calling identity, `deletePost` fails with `Not authorized` (status 403),
and so does `updatePost` once the request passed validation, supplies a
non-empty image URL (file path or body field) and the creator of the post
resolves to an existing User.  In every case, also the excluded ones, the store
is unchanged, no asset deletion is requested and no event is emitted. -/
theorem nonCreator_forbidden (env : Env) (req : Req) (db : Db) (post : Post)
    (hlookup : env.fault StoreCall.postFindById = none)
    (hpost : findById Post._id db.posts req.postId = some post)
    (hne : post.creator ≠ req.userId) :
    ((deletePost env req db).outcome = Outcome.next (httpError "Not authorized" 403) ∧
      (deletePost env req db).outcome.response = some ⟨403, Body.error "Not authorized" none⟩ ∧
      (deletePost env req db).db = db ∧
      unlinks (deletePost env req db).effects = [] ∧
      emits (deletePost env req db).effects = []) ∧
    ((updatePost env req db).db = db ∧
      unlinks (updatePost env req db).effects = [] ∧
      emits (updatePost env req db).effects = []) ∧
    (req.validationErrors = [] → truthyString req.imageUrl = true →
      (findById User._id db.users post.creator).isSome = true →
      (updatePost env req db).outcome = Outcome.next (httpError "Not authorized" 403) ∧
      (updatePost env req db).outcome.response =
        some ⟨403, Body.error "Not authorized" none⟩) := by
  have hdel : deletePost env req db =
      ⟨Outcome.next (httpError "Not authorized" 403), db,
        [Effect.store StoreCall.postFindById true]⟩ := by
    simp [deletePost, hlookup, hpost, hne, catchNext, httpError, truthyStatus]
  refine ⟨?_, ?_, ?_⟩
  · rw [hdel]
    simp [Outcome.response, errorMiddleware, httpError, truthyStatus, unlinks, emits]
  · unfold updatePost
    split
    · simp [unlinks, emits]
    · split
      · simp [unlinks, emits]
      · simp only [hlookup, hpost]
        cases hc : findById User._id db.users post.creator with
        | none => simp [unlinks, emits]
        | some creator =>
          have hcid : creator._id ≠ req.userId := by
            rw [(findById_some hc).2]; exact hne
          simp [hcid, unlinks, emits]
  · intro hvalid himg hsome
    obtain ⟨creator, hc⟩ := Option.isSome_iff_exists.1 hsome
    have hcid : creator._id ≠ req.userId := by
      rw [(findById_some hc).2]; exact hne
    have hupd : updatePost env req db =
        ⟨Outcome.next (httpError "Not authorized" 403), db,
          [Effect.store StoreCall.postFindById true]⟩ := by
      simp [updatePost, hvalid, himg, hlookup, hpost, hc, hcid, catchNext, httpError,
        truthyStatus]
    rw [hupd]
    simp [Outcome.response, errorMiddleware, httpError, truthyStatus]

/-- Witness of C1 (amended): U2 tries to delete and to update P1 of U1 with a
valid request; both attempts are answered 403 and nothing changes. -/
theorem nonCreator_forbidden_witness :
    (deletePost envOk (reqUpdate 2 (some "images/img1.png") none) dbP1).outcome.response =
      some ⟨403, Body.error "Not authorized" none⟩ ∧
    (deletePost envOk (reqUpdate 2 (some "images/img1.png") none) dbP1).db = dbP1 ∧
    (updatePost envOk (reqUpdate 2 (some "images/img1.png") none) dbP1).outcome.response =
      some ⟨403, Body.error "Not authorized" none⟩ ∧
    (updatePost envOk (reqUpdate 2 (some "images/img1.png") none) dbP1).db = dbP1 :=
  have h := nonCreator_forbidden envOk (reqUpdate 2 (some "images/img1.png") none) dbP1 postP1
    rfl rfl (by decide)
  ⟨h.1.2.1, h.1.2.2.1, (h.2.2 rfl rfl rfl).2, h.2.1.1⟩

/-! ## C2: pagination -/

/-- C2: when the two queries of `getPosts` succeed and the requested page is
`p ≥ 1` (the default 1 when no page is given), the handler answers 200 with
exactly the posts at positions `(p-1)*2` and `(p-1)*2+1` (those that exist) of
the collection sorted by `createdAt` descending, creators populated, and with
`totalItems` the size of the whole collection; the sorted list is a permutation
of the collection in descending order; a page past the end yields the empty
list with status 200; the store is not modified. -/
theorem getPosts_page (env : Env) (req : Req) (db : Db) (p : Nat)
    (hp : 1 ≤ p) (hpage : req.page.getD 1 = (p : Int))
    (hcount : env.fault StoreCall.postCount = none)
    (hfind : env.fault StoreCall.postFind = none) :
    (sortDesc db.posts).Perm db.posts ∧
    (sortDesc db.posts).Pairwise (fun a b => b.createdAt ≤ a.createdAt) ∧
    (getPosts env req db).outcome =
      Outcome.responded ⟨200, Body.posts "Fetched posts successfully."
        (([(sortDesc db.posts)[(p - 1) * 2]?, (sortDesc db.posts)[(p - 1) * 2 + 1]?].filterMap
          id).map (populate db.users))
        db.posts.length⟩ ∧
    (db.posts.length ≤ (p - 1) * 2 →
      (getPosts env req db).outcome =
        Outcome.responded ⟨200, Body.posts "Fetched posts successfully." [] db.posts.length⟩) ∧
    (getPosts env req db).db = db := by
  have hskip : ¬ (((p : Int) - 1) * 2 < 0) := by omega
  have hnat : (((p : Int) - 1) * 2).toNat = (p - 1) * 2 := by omega
  have hout : (getPosts env req db).outcome =
      Outcome.responded ⟨200, Body.posts "Fetched posts successfully."
        ((((sortDesc db.posts).drop ((p - 1) * 2)).take 2).map (populate db.users))
        db.posts.length⟩ := by
    simp [getPosts, hcount, hfind, hpage, hskip, hnat]
  refine ⟨sortDesc_perm _, sortDesc_pairwise _, ?_, ?_, ?_⟩
  · rw [hout, take_two_drop]
  · intro hlen
    rw [hout]
    have : (sortDesc db.posts).length ≤ (p - 1) * 2 := by
      rw [(sortDesc_perm db.posts).length_eq]; exact hlen
    simp [List.drop_eq_nil_of_le this]
  · simp only [getPosts, hcount, hfind]
    split <;> rfl

/-- Witness of C2: the five-post collection of the specification, pages 1, 3 and 4. -/
theorem getPosts_page_witness :
    (getPosts envOk (reqPage 1) dbFive).outcome =
      Outcome.responded ⟨200, Body.posts "Fetched posts successfully."
        [populate dbFive.users (postAt 25 5), populate dbFive.users (postAt 24 4)] 5⟩ ∧
    (getPosts envOk (reqPage 3) dbFive).outcome =
      Outcome.responded ⟨200, Body.posts "Fetched posts successfully."
        [populate dbFive.users (postAt 21 1)] 5⟩ ∧
    (getPosts envOk (reqPage 4) dbFive).outcome =
      Outcome.responded ⟨200, Body.posts "Fetched posts successfully." [] 5⟩ :=
  ⟨(getPosts_page envOk (reqPage 1) dbFive 1 (by decide) rfl rfl rfl).2.2.1,
   (getPosts_page envOk (reqPage 3) dbFive 3 (by decide) rfl rfl rfl).2.2.1,
   (getPosts_page envOk (reqPage 4) dbFive 4 (by decide) rfl rfl rfl).2.2.2.1 (by decide)⟩

/-! ## C3: successful creation -/

/-- C3: a create request that passes validation, carries an image file and whose
identity resolves to an existing User succeeds with status 201 when the three
store calls succeed and the generated ObjectId is not in use: the returned post
has the submitted fields and `creator` equal to the submitting identity, the
post is stored, and the User record of the identity afterwards holds the
references it had followed by the new post id. -/
theorem createPost_success (env : Env) (req : Req) (db : Db) (user : User) (path : String)
    (hvalid : req.validationErrors = []) (hfile : req.file = some path)
    (huser : findById User._id db.users req.userId = some user)
    (hsave : env.fault StoreCall.postSave = none)
    (hfind : env.fault StoreCall.userFindById = none)
    (husave : env.fault StoreCall.userSave = none)
    (hfresh : findById Post._id db.posts env.newId = none) :
    ∃ post : Post,
      post = { _id := env.newId, title := req.title, content := req.content, imageUrl := path,
               creator := req.userId, createdAt := env.now, updatedAt := env.now } ∧
      (createPost env req db).outcome =
        Outcome.responded
          ⟨201, Body.created "Post created successfully" post.toDoc req.userId user.name⟩ ∧
      post.toDoc.creator = CreatorField.id req.userId ∧
      (createPost env req db).db.posts = db.posts ++ [post] ∧
      findById User._id (createPost env req db).db.users req.userId =
        some { user with posts := user.posts ++ [post._id] } ∧
      (∀ i, i ≠ req.userId →
        findById User._id (createPost env req db).db.users i = findById User._id db.users i) := by
  have hid : user._id = req.userId := (findById_some huser).2
  refine ⟨_, rfl, ?_, rfl, ?_, ?_, ?_⟩
  · simp [createPost, hvalid, hfile, huser, hsave, hfind, husave, hfresh, hid]
  · simp [createPost, hvalid, hfile, huser, hsave, hfind, husave, hfresh]
  · have h : findById User._id
        (replaceFirst User._id db.users { user with posts := user.posts ++ [env.newId] })
        req.userId = some { user with posts := user.posts ++ [env.newId] } := by
      rw [← hid]
      exact findById_replaceFirst_self (d := { user with posts := user.posts ++ [env.newId] })
        (hid ▸ huser)
    simpa [createPost, hvalid, hfile, huser, hsave, hfind, husave, hfresh] using h
  · intro i hi
    have h := findById_replaceFirst_other User._id db.users
      { user with posts := user.posts ++ [env.newId] } i (by simpa [hid] using hi)
    simpa [createPost, hvalid, hfile, huser, hsave, hfind, husave, hfresh] using h

/-- Witness of C3: U1 creates a post with image `images/img2.png` in the store
holding P1; the generated id 11 is appended to the references of U1. -/
theorem createPost_success_witness :
    (createPost envOk (reqCreate (some "images/img2.png") []) dbP1).outcome.isSuccess = true ∧
    findById User._id (createPost envOk (reqCreate (some "images/img2.png") []) dbP1).db.users 1 =
      some { _id := 1, name := "U1", posts := [10, 11] } := by
  obtain ⟨post, hpost, hout, -, -, husers, -⟩ :=
    createPost_success envOk (reqCreate (some "images/img2.png") []) dbP1 userU1
      "images/img2.png" rfl rfl rfl rfl rfl rfl rfl
  refine ⟨by rw [hout]; rfl, ?_⟩
  rw [show (1 : Id) = (reqCreate (some "images/img2.png") []).userId from rfl, husers, hpost]
  rfl

/-! ## C4: the event is emitted after the commit -/

/-- C4: every run of `createPost`, `updatePost` and `deletePost` satisfies the
ordering contract: when a store call of the run fails (post lookup, post save,
post removal, user lookup, user save) no event is emitted and the run ends in
`next(err)`, the client receiving the status of the error if it has one and 500
otherwise; when the run succeeds, its only `emit` is its last effect, on channel
`posts` with action `create`, `update` or `delete` respectively, after every
store call of the run, all of which succeeded, the persistence writes among
them; a run that does not succeed emits nothing. -/
theorem emit_after_commit (env : Env) (req : Req) (db : Db) :
    OrderingContract "create" [StoreCall.postSave, StoreCall.userSave] env.fault
      (createPost env req db) ∧
    OrderingContract "update" [StoreCall.postSave] env.fault (updatePost env req db) ∧
    OrderingContract "delete" [StoreCall.postRemove, StoreCall.userSave] env.fault
      (deletePost env req db) := by
  refine ⟨?_, ?_, ?_⟩
  · unfold createPost
    by_cases hv : req.validationErrors ≠ []
    · rw [if_pos hv]
      exact contract_of_rejected _ _ _ _ _
    rw [if_neg hv]
    cases hf : req.file with
    | none => exact contract_of_rejected _ _ _ _ _
    | some path =>
      dsimp only
      cases h1 : env.fault StoreCall.postSave with
      | some e => exact contract_of_caught _ _ _ e _ _ rfl (by simp [storeCalls, h1])
      | none =>
        dsimp only
        by_cases h2 : (findById Post._id db.posts env.newId).isSome = true
        · rw [if_pos h2]
          exact contract_of_caught _ _ _ duplicateKeyError _ _ rfl (by simp [storeCalls])
        rw [if_neg h2]
        cases h3 : env.fault StoreCall.userFindById with
        | some e => exact contract_of_caught _ _ _ e _ _ rfl (by simp [storeCalls, h3])
        | none =>
          dsimp only
          cases h4 : findById User._id db.users req.userId with
          | none => exact contract_of_caught _ _ _ _ _ _ rfl (by simp [storeCalls])
          | some user =>
            dsimp only
            cases h5 : env.fault StoreCall.userSave with
            | some e => exact contract_of_caught _ _ _ e _ _ rfl (by simp [storeCalls, h5])
            | none =>
              exact contract_of_responded "create"
                [StoreCall.postSave, StoreCall.userSave] env.fault _ _
                [Effect.store StoreCall.postSave true, Effect.store StoreCall.userFindById true,
                  Effect.store StoreCall.userSave true] _ rfl rfl
                (by simp [storeCalls]) (by simp [storeCalls])
  · unfold updatePost
    by_cases hv : req.validationErrors ≠ []
    · rw [if_pos hv]
      exact contract_of_rejected _ _ _ _ _
    rw [if_neg hv]
    by_cases hi : ¬ truthyString req.imageUrl = true
    · rw [if_pos hi]
      exact contract_of_rejected _ _ _ _ _
    rw [if_neg hi]
    dsimp only
    cases h1 : env.fault StoreCall.postFindById with
    | some e => exact contract_of_caught _ _ _ e _ _ rfl (by simp [storeCalls, h1])
    | none =>
      dsimp only
      cases h2 : findById Post._id db.posts req.postId with
      | none => exact contract_of_caught _ _ _ _ _ _ rfl (by simp [storeCalls])
      | some post =>
        dsimp only
        cases h3 : findById User._id db.users post.creator with
        | none => exact contract_of_caught _ _ _ _ _ _ rfl (by simp [storeCalls])
        | some creator =>
          dsimp only
          by_cases h4 : creator._id ≠ req.userId
          · rw [if_pos h4]
            exact contract_of_caught _ _ _ _ _ _ rfl (by simp [storeCalls])
          rw [if_neg h4]
          cases h5 : env.fault StoreCall.postSave with
          | some e =>
            refine contract_of_caught _ _ _ e _ _ ?_ ?_
            · split <;> simp [emits, clearImage]
            · split <;> simp [storeCalls, clearImage, h5]
          | none =>
            dsimp only
            by_cases hd : req.imageUrl.getD "" ≠ post.imageUrl
            · rw [if_pos hd]
              exact contract_of_responded "update" [StoreCall.postSave] env.fault _ _
                [Effect.store StoreCall.postFindById true, Effect.unlink post.imageUrl,
                  Effect.store StoreCall.postSave true] _ rfl rfl
                (by simp [storeCalls]) (by simp [storeCalls])
            · rw [if_neg hd]
              exact contract_of_responded "update" [StoreCall.postSave] env.fault _ _
                [Effect.store StoreCall.postFindById true,
                  Effect.store StoreCall.postSave true] _ rfl rfl
                (by simp [storeCalls]) (by simp [storeCalls])
  · unfold deletePost
    cases h1 : env.fault StoreCall.postFindById with
    | some e => exact contract_of_caught _ _ _ e _ _ rfl (by simp [storeCalls, h1])
    | none =>
      dsimp only
      cases h2 : findById Post._id db.posts req.postId with
      | none => exact contract_of_caught _ _ _ _ _ _ rfl (by simp [storeCalls])
      | some post =>
        dsimp only
        by_cases h3 : post.creator ≠ req.userId
        · rw [if_pos h3]
          exact contract_of_caught _ _ _ _ _ _ rfl (by simp [storeCalls])
        rw [if_neg h3]
        cases h4 : env.fault StoreCall.postRemove with
        | some e =>
          exact contract_of_caught _ _ _ e _ _ rfl (by simp [storeCalls, clearImage, h4])
        | none =>
          dsimp only
          cases h5 : env.fault StoreCall.userFindById with
          | some e =>
            exact contract_of_caught _ _ _ e _ _ rfl (by simp [storeCalls, clearImage, h5])
          | none =>
            dsimp only
            cases h6 : findById User._id db.users req.userId with
            | none =>
              exact contract_of_caught _ _ _ _ _ _ rfl (by simp [storeCalls, clearImage])
            | some user =>
              dsimp only
              cases h7 : env.fault StoreCall.userSave with
              | some e =>
                exact contract_of_caught _ _ _ e _ _ rfl
                  (by simp [storeCalls, clearImage, h7])
              | none =>
                exact contract_of_responded "delete"
                  [StoreCall.postRemove, StoreCall.userSave] env.fault _ _
                  ([Effect.store StoreCall.postFindById true] ++ clearImage post.imageUrl ++
                    [Effect.store StoreCall.postRemove true,
                      Effect.store StoreCall.userFindById true,
                      Effect.store StoreCall.userSave true]) _ rfl rfl
                  (by simp [storeCalls, clearImage]) (by simp [storeCalls, clearImage])

/-- Witness of C4: when saving the user fails, `createPost` emits nothing (the
post was already stored); when every call succeeds, the run ends with the
`create` event. -/
theorem emit_after_commit_witness :
    emits (createPost envUserSaveFails (reqCreate (some "images/img2.png") []) dbP1).effects
      = [] ∧
    ∃ pre ev,
      (createPost envOk (reqCreate (some "images/img2.png") []) dbP1).effects =
        pre ++ [Effect.emit "posts" ev] ∧ ev.action = "create" :=
  ⟨((emit_after_commit envUserSaveFails (reqCreate (some "images/img2.png") []) dbP1).1.1
      StoreCall.userSave (by decide)).1,
    let ⟨pre, ev, h1, h2, _⟩ :=
      (emit_after_commit envOk (reqCreate (some "images/img2.png") []) dbP1).1.2.1 (by decide)
    ⟨pre, ev, h1, h2⟩⟩

/-! ## C5: create without an image -/

/-- C5: a create request that passes validation but has no image file fails with
the error `No image provided.` of status 422; the store is unchanged and the
handler performed no effect at all (no store call, no deletion, no event). -/
theorem createPost_missing_image (env : Env) (req : Req) (db : Db)
    (hvalid : req.validationErrors = []) (hfile : req.file = none) :
    (createPost env req db).outcome.raised =
      some { message := "No image provided.", statusCode := some 422, data := none } ∧
    (createPost env req db).db = db ∧
    (createPost env req db).effects = [] := by
  simp [createPost, hvalid, hfile, Outcome.raised, httpError]

/-- Witness of C5: U1 posts without a file into the store holding P1. -/
theorem createPost_missing_image_witness :
    (reqCreate none []).validationErrors = [] ∧ (reqCreate none []).file = none ∧
    (createPost envOk (reqCreate none []) dbP1).outcome.raised =
      some { message := "No image provided.", statusCode := some 422, data := none } ∧
    (createPost envOk (reqCreate none []) dbP1).db = dbP1 ∧
    (createPost envOk (reqCreate none []) dbP1).effects = [] :=
  ⟨rfl, rfl, createPost_missing_image envOk (reqCreate none []) dbP1 rfl rfl⟩

/-! ## C6: reading one post -/

/-- C6, evaluation at the failing input: `GET /feed/post/10` on the store holding
P1 of U1 answers 200 with P1 whose `creator` is the bare ObjectId 1, because
`getPost` calls `Post.findById` without `.populate('creator')`; the response
carries no creator name, whereas `getPosts` on the same store returns P1 with
the User document of U1 in `creator`.  The second half of the claim holds at
this input: an id that no post has is answered 404. -/
theorem getPost_creator_not_resolved :
    (getPost envOk (reqPost 2) dbP1).outcome =
      Outcome.responded ⟨200, Body.post "Post fetched"
        { _id := 10, title := "A", content := "hello world", imageUrl := "images/img1.png",
          creator := CreatorField.id 1, createdAt := 100, updatedAt := 100 }⟩ ∧
    (getPosts envOk (reqPage 1) dbP1).outcome =
      Outcome.responded ⟨200, Body.posts "Fetched posts successfully."
        [{ _id := 10, title := "A", content := "hello world", imageUrl := "images/img1.png",
           creator := CreatorField.populated (some userU1), createdAt := 100,
           updatedAt := 100 }] 1⟩ ∧
    (getPost envOk { reqPost 2 with postId := 99 } dbP1).outcome.response =
      some ⟨404, Body.error "Could not find post" none⟩ := by
  decide

/-! ## C7: requests that fail field validation -/

/-- C7, counterexample: U1 posts with an empty title.  The error raised by
`createPost` has status 422 and a message but no `data`; it is thrown outside
`try`/`catch`, so it is not passed to `next`, and the body the error middleware
builds from such an error carries no validation detail either. -/
theorem createPost_invalid_no_data :
    (reqCreate (some "images/img2.png") ["title"]).validationErrors ≠ [] ∧
    (createPost envOk (reqCreate (some "images/img2.png") ["title"]) dbP1).outcome =
      Outcome.rejected
        { message := "Validation failed, entered data is incorrect.", statusCode := some 422,
          data := none } ∧
    (¬ ∃ e detail,
      (createPost envOk (reqCreate (some "images/img2.png") ["title"]) dbP1).outcome =
        Outcome.next e ∧ e.data = some detail) ∧
    errorMiddleware
        { message := "Validation failed, entered data is incorrect.", statusCode := some 422,
          data := none } =
      ⟨422, Body.error "Validation failed, entered data is incorrect." none⟩ := by
  refine ⟨by decide, by decide, ?_, by decide⟩
  rintro ⟨e, detail, h, -⟩
  have h2 : (createPost envOk (reqCreate (some "images/img2.png") ["title"]) dbP1).outcome =
      Outcome.rejected (httpError "Validation failed, entered data is incorrect." 422) := by
    decide
  rw [h2] at h
  cases h

/-- C7, amended: a create or update request that fails field validation makes the
handler raise an error with status 422 and the message
`Validation failed, entered data is incorrect.`, which carries no `data`; the
store is unchanged and no effect is performed (no store call, no asset
deletion, no event). -/
theorem validation_failure (env : Env) (req : Req) (db : Db)
    (hinvalid : req.validationErrors ≠ []) :
    ((createPost env req db).outcome.raised =
        some { message := "Validation failed, entered data is incorrect.",
               statusCode := some 422, data := none } ∧
      (createPost env req db).db = db ∧ (createPost env req db).effects = []) ∧
    ((updatePost env req db).outcome.raised =
        some { message := "Validation failed, entered data is incorrect.",
               statusCode := some 422, data := none } ∧
      (updatePost env req db).db = db ∧ (updatePost env req db).effects = []) := by
  simp [createPost, updatePost, hinvalid, Outcome.raised, httpError]

/-- Witness of C7 (amended): U1 updates P1 with an empty title. -/
theorem validation_failure_witness :
    (reqUpdateInvalid 1).validationErrors ≠ [] ∧
    (updatePost envOk (reqUpdateInvalid 1) dbP1).outcome.raised =
      some { message := "Validation failed, entered data is incorrect.",
             statusCode := some 422, data := none } ∧
    (updatePost envOk (reqUpdateInvalid 1) dbP1).db = dbP1 :=
  have h := validation_failure envOk (reqUpdateInvalid 1) dbP1 (by decide)
  ⟨by decide, h.2.1, h.2.2.1⟩

/-! ## C8: successful deletion -/

/-- C8: on a store with unique ids, when the creator of an existing post `post`
deletes it, the identity resolves to the User `user` and the four store calls
succeed, `deletePost` answers 200 and afterwards: no post has the id of `post`,
so `getPost` on it is answered 404; the other posts are exactly the posts that
were there; the User record of the creator holds its former references without
the id of `post`; every other User record is unchanged; exactly one asset
deletion was requested, for the `imageUrl` of `post`; and the single event
emitted is `delete` on channel `posts`, carrying only the id. -/
theorem deletePost_success (env : Env) (req : Req) (db : Db) (post : Post) (user : User)
    (huniq : db.uniqueIds)
    (hpost : findById Post._id db.posts req.postId = some post)
    (hown : post.creator = req.userId)
    (huser : findById User._id db.users req.userId = some user)
    (hlookup : env.fault StoreCall.postFindById = none)
    (hremove : env.fault StoreCall.postRemove = none)
    (hfind : env.fault StoreCall.userFindById = none)
    (hsave : env.fault StoreCall.userSave = none) :
    (deletePost env req db).outcome = Outcome.responded ⟨200, Body.message "Deleted post."⟩ ∧
    (∀ q ∈ (deletePost env req db).db.posts, q._id ≠ req.postId) ∧
    (getPost env req (deletePost env req db).db).outcome.response =
      some ⟨404, Body.error "Could not find post" none⟩ ∧
    (deletePost env req db).db.posts = db.posts.filter (fun q => q._id ≠ req.postId) ∧
    findById User._id (deletePost env req db).db.users req.userId =
      some { user with posts := user.posts.filter (fun r => r ≠ req.postId) } ∧
    req.postId ∉ user.posts.filter (fun r => r ≠ req.postId) ∧
    (∀ i, i ≠ req.userId →
      findById User._id (deletePost env req db).db.users i = findById User._id db.users i) ∧
    unlinks (deletePost env req db).effects = [post.imageUrl] ∧
    emits (deletePost env req db).effects =
      [("posts", { action := "delete", post := Payload.id req.postId })] := by
  have hid : user._id = req.userId := (findById_some huser).2
  have hrun : deletePost env req db =
      ⟨Outcome.responded ⟨200, Body.message "Deleted post."⟩,
        { posts := removeFirst Post._id db.posts req.postId,
          users := replaceFirst User._id db.users
            { user with posts := user.posts.filter (fun r => r ≠ req.postId) } },
        [Effect.store StoreCall.postFindById true] ++ clearImage post.imageUrl ++
          [Effect.store StoreCall.postRemove true, Effect.store StoreCall.userFindById true,
            Effect.store StoreCall.userSave true] ++
          ioEmit "posts" { action := "delete", post := Payload.id req.postId }⟩ := by
    simp [deletePost, hpost, hown, huser, hlookup, hremove, hfind, hsave]
  have hposts : removeFirst Post._id db.posts req.postId =
      db.posts.filter (fun q => q._id ≠ req.postId) :=
    removeFirst_eq_filter Post._id db.posts req.postId huniq.1
  have hgone : ∀ q ∈ removeFirst Post._id db.posts req.postId, q._id ≠ req.postId := by
    intro q hq
    exact ((mem_removeFirst Post._id huniq.1 q).1 hq).2
  have hnone : findById Post._id (removeFirst Post._id db.posts req.postId) req.postId = none := by
    unfold findById
    rw [List.find?_eq_none]
    intro q hq
    simpa using hgone q hq
  rw [hrun]
  refine ⟨rfl, hgone, ?_, hposts, ?_, ?_, ?_, rfl, rfl⟩
  · simp [getPost, hlookup, hnone, catchNext_response, httpError, truthyStatus]
  · show findById User._id (replaceFirst User._id db.users _) req.userId = _
    rw [← hid]
    exact findById_replaceFirst_self
      (d := { user with posts := user.posts.filter (fun r => r ≠ req.postId) }) (hid ▸ huser)
  · simp
  · intro i hi
    exact findById_replaceFirst_other User._id db.users _ i (by simpa [hid] using hi)

/-- Witness of C8: U1 deletes its post P1. -/
theorem deletePost_success_witness :
    (deletePost envOk (reqPost 1) dbP1).outcome =
      Outcome.responded ⟨200, Body.message "Deleted post."⟩ ∧
    (getPost envOk (reqPost 1) (deletePost envOk (reqPost 1) dbP1).db).outcome.response =
      some ⟨404, Body.error "Could not find post" none⟩ ∧
    findById User._id (deletePost envOk (reqPost 1) dbP1).db.users 1 =
      some { _id := 1, name := "U1", posts := [] } ∧
    emits (deletePost envOk (reqPost 1) dbP1).effects =
      [("posts", { action := "delete", post := Payload.id 10 })] :=
  have h := deletePost_success envOk (reqPost 1) dbP1 postP1 userU1 (by decide) rfl rfl rfl
    rfl rfl rfl rfl
  ⟨h.1, h.2.2.1, h.2.2.2.2.1, h.2.2.2.2.2.2.2.2⟩

/-! ## C9: the ownership invariant -/

/-- C9: on a store with unique ids (the guarantee of the document store) in
which the bidirectional ownership invariant holds, every `createPost`,
`updatePost` or `deletePost` that completes successfully leaves a store in which
the invariant holds again, ids still unique. -/
theorem ownership_preserved (env : Env) (req : Req) (db : Db)
    (huniq : db.uniqueIds) (hinv : db.ownership) :
    ((createPost env req db).outcome.isSuccess = true →
      (createPost env req db).db.ownership ∧ (createPost env req db).db.uniqueIds) ∧
    ((updatePost env req db).outcome.isSuccess = true →
      (updatePost env req db).db.ownership ∧ (updatePost env req db).db.uniqueIds) ∧
    ((deletePost env req db).outcome.isSuccess = true →
      (deletePost env req db).db.ownership ∧ (deletePost env req db).db.uniqueIds) := by
  refine ⟨?_, ?_, ?_⟩
  · intro h
    obtain ⟨path, user, -, hfresh, huser, hdb⟩ := createPost_success_inv env req db h
    rw [hdb]
    exact ownership_insert db
      { _id := env.newId, title := req.title, content := req.content, imageUrl := path,
        creator := req.userId, createdAt := env.now, updatedAt := env.now }
      user huniq hinv hfresh huser
  · intro h
    obtain ⟨post, creator, url, hpost, -, -, hdb⟩ := updatePost_success_inv env req db h
    have hf := Post.edited_fields post req.title url req.content env.now
    have hpid : post._id = req.postId := (findById_some hpost).2
    rw [hdb]
    exact ownership_replace db post _ huniq hinv (hpid ▸ hpost) hf.1 hf.2.1
  · intro h
    obtain ⟨post, user, hpost, hown, huser, hdb⟩ := deletePost_success_inv env req db h
    have hpid : post._id = req.postId := (findById_some hpost).2
    rw [hdb, ← hpid]
    exact ownership_remove db post user huniq hinv (hpid ▸ hpost) (hown ▸ huser)

/-- Witness of C9: on the store holding P1 of U1, U1 creates a second post, then
updates P1, then deletes P1; each run succeeds and keeps the invariant. -/
theorem ownership_preserved_witness :
    dbP1.uniqueIds ∧ dbP1.ownership ∧
    (createPost envOk (reqCreate (some "images/img2.png") []) dbP1).db.ownership ∧
    (updatePost envOk (reqUpdate 1 none (some "images/img2.png")) dbP1).db.ownership ∧
    (deletePost envOk (reqPost 1) dbP1).db.ownership :=
  ⟨by decide, by decide,
    ((ownership_preserved envOk (reqCreate (some "images/img2.png") []) dbP1
      (by decide) (by decide)).1 (by decide)).1,
    ((ownership_preserved envOk (reqUpdate 1 none (some "images/img2.png")) dbP1
      (by decide) (by decide)).2.1 (by decide)).1,
    ((ownership_preserved envOk (reqPost 1) dbP1 (by decide) (by decide)).2.2 (by decide)).1⟩

/-! ## C10: asset cleanup on update -/

/-- C10, counterexample: U1 updates P1 without uploading a file, sending in the
body an image URL that differs from the stored one.  No new image file was
supplied, yet one deletion of the stored image is requested. -/
theorem updatePost_unlink_without_file :
    (reqUpdate 1 (some "images/other.png") none).file = none ∧
    (updatePost envOk (reqUpdate 1 (some "images/other.png") none) dbP1).outcome.isSuccess
      = true ∧
    unlinks (updatePost envOk (reqUpdate 1 (some "images/other.png") none) dbP1).effects =
      ["images/img1.png"] ∧
    (unlinks (updatePost envOk (reqUpdate 1 (some "images/other.png") none) dbP1).effects).length
      ≠ 0 := by
  decide

/-- C10, amended: for an update by the creator that reaches the image step
(validation passed, image URL `url` non-empty, post found, creator resolved and
equal to the identity), exactly one asset deletion is requested, against the
stored `imageUrl`, when `url` (the path of the uploaded file if there is one,
otherwise the body field `image`) differs from the stored `imageUrl`, and none
otherwise; no deletion is requested against `url`; and when the save succeeds
the handler answers 200 and the stored post has `imageUrl = url`. -/
theorem updatePost_image_cleanup (env : Env) (req : Req) (db : Db) (post : Post)
    (creator : User) (url : String)
    (hvalid : req.validationErrors = [])
    (hurl : req.imageUrl = some url) (hnonempty : url ≠ "")
    (hlookup : env.fault StoreCall.postFindById = none)
    (hpost : findById Post._id db.posts req.postId = some post)
    (hcreator : findById User._id db.users post.creator = some creator)
    (hown : post.creator = req.userId) :
    unlinks (updatePost env req db).effects =
      (if url ≠ post.imageUrl then [post.imageUrl] else []) ∧
    url ∉ unlinks (updatePost env req db).effects ∧
    (env.fault StoreCall.postSave = none →
      (updatePost env req db).outcome.isSuccess = true ∧
      ∃ saved : Post,
        findById Post._id (updatePost env req db).db.posts req.postId = some saved ∧
        saved.imageUrl = url ∧ saved.title = req.title ∧ saved.content = req.content ∧
        saved.creator = post.creator ∧
        (updatePost env req db).outcome =
          Outcome.responded ⟨200, Body.post "Post updated" (saved.toDocWith (some creator))⟩) := by
  have hcid : creator._id = req.userId := by rw [(findById_some hcreator).2]; exact hown
  have hrun := updatePost_by_creator env req db post creator url hvalid hurl hnonempty hlookup
    hpost hcreator hcid
  have hpid : post._id = req.postId := (findById_some hpost).2
  have hfx : unlinks (updatePost env req db).effects =
      (if url ≠ post.imageUrl then [post.imageUrl] else []) := by
    rw [hrun]
    cases env.fault StoreCall.postSave <;> by_cases hd : url = post.imageUrl <;>
      simp [hd, clearImage, unlinks]
  refine ⟨hfx, ?_, ?_⟩
  · rw [hfx]
    by_cases hd : url = post.imageUrl
    · simp [hd]
    · simp [hd]
  · intro hs
    rw [hrun, hs]
    have hf := Post.edited_fields post req.title url req.content env.now
    refine ⟨rfl, post.edited req.title url req.content env.now, ?_, hf.2.2.2.1, hf.2.2.1,
      hf.2.2.2.2.1, hf.2.1, rfl⟩
    have hsid : (post.edited req.title url req.content env.now)._id = req.postId := by
      rw [hf.1, hpid]
    show findById Post._id (replaceFirst Post._id db.posts
      (post.edited req.title url req.content env.now)) req.postId = _
    rw [← hsid]
    exact findById_replaceFirst_self (hsid ▸ hpost)

/-- Witness of C10 (amended): U1 replaces the image of P1 by an uploaded file. -/
theorem updatePost_image_cleanup_witness :
    unlinks (updatePost envOk (reqUpdate 1 none (some "images/img2.png")) dbP1).effects =
      ["images/img1.png"] ∧
    "images/img2.png" ∉
      unlinks (updatePost envOk (reqUpdate 1 none (some "images/img2.png")) dbP1).effects :=
  have h := updatePost_image_cleanup envOk (reqUpdate 1 none (some "images/img2.png")) dbP1
    postP1 userU1 "images/img2.png" rfl rfl (by decide) rfl rfl rfl rfl
  ⟨h.1, h.2.1⟩

end Feed
